import Mathlib

/-
Verification of the `jwtmiddleware` Go package (mfuentesg/go-jwtmiddleware).

Shallow embedding conventions:
- Go strings are modelled as `List Char` (`GoStr`); `strings.Split(s, " ")`
  is modelled by `splitChar ' '`, `strings.ToLower` by a per-character map
  (faithful for the ASCII data this package compares against).
- `net/http` values (`Request`, `Header`, `ResponseWriter`, `url.URL`,
  `context.Context`) are modelled as pure structures; handlers become
  functions `ResponseWriter -> Request -> ResponseWriter` returning the
  final writer state.
- The external jwt library (`github.com/dgrijalva/jwt-go`) is modelled at
  its interface: `jwt.Parse(token, keyfunc)` becomes an abstract function
  `JwtParse` taking the token string and the key that the middleware's
  constant key-resolver closure returns.  A successfully parsed token is a
  `JwtToken`; `t.Header["alg"]` is modelled as `Option GoStr` (`none` when
  the entry is absent, in which case Go's `interface{}` comparison against
  the algorithm-name string is also unequal).
- Go's `(value, error)` returns in this package always pair a nil error
  with a usable value and vice versa, so they are modelled as
  `Except GoError _`.
-/

namespace JwtMw

/-- Go strings, modelled as their character sequence. -/
abbrev GoStr := List Char

/-- Model of Go `strings.Split(s, sep)` for a one-character separator `c`:
splits `s` at every occurrence of `c`; `Split("", sep) = [""]`. -/
def splitChar (c : Char) : GoStr → List GoStr
  | [] => [[]]
  | x :: xs =>
    match splitChar c xs with
    | [] => [[]]
    | y :: ys => if x = c then [] :: y :: ys else (x :: y) :: ys

/-- Model of Go `strings.ToLower` (per-character lowering; the package only
compares ASCII scheme words, where this matches Go's Unicode lowering). -/
def goToLower (s : GoStr) : GoStr := s.map Char.toLower

/-- Helper for `canonicalKey`: `up` records whether the next letter starts a
word (start of string or right after a hyphen). -/
def canonAux : Bool → GoStr → GoStr
  | _, [] => []
  | up, c :: cs => (if up then c.toUpper else c.toLower) :: canonAux (c = '-') cs

/-- Model of `textproto.CanonicalMIMEHeaderKey` on valid header names: first
letter and every letter after a hyphen upper-cased, the rest lower-cased.
`net/http` canonicalises header names both when storing and when looking
them up, which is what makes header lookup case-insensitive. -/
def canonicalKey (s : GoStr) : GoStr := canonAux true s

/-- Model of `http.Header`: the ordered header entries of a request. -/
structure Header where
  entries : List (GoStr × GoStr)
deriving DecidableEq

/-- Model of `http.Header.Get`: the first entry matching the canonicalised
name, or `""` when absent. -/
def Header.get (h : Header) (key : GoStr) : GoStr :=
  match h.entries.find? (fun p => canonicalKey p.1 == canonicalKey key) with
  | some p => p.2
  | none => []

/-- Model of `url.URL` at the interface this package uses: a path and the
parsed query parameters in order (`r.URL.Query()`). -/
structure URL where
  path : GoStr
  query : List (GoStr × GoStr)
deriving DecidableEq

/-- Model of `url.Values.Get` on the parsed query: the first value bound to
`param`, or `""` when absent. -/
def URL.queryGet (u : URL) (param : GoStr) : GoStr :=
  match u.query.find? (fun p => p.1 == param) with
  | some p => p.2
  | none => []

/-- A verified token returned by the external library (`jwt.Token`):
its raw string, its declared `"alg"` header entry (`none` when absent),
its claim set, and its validity flag. -/
structure JwtToken where
  raw : GoStr
  headerAlg : Option GoStr
  claims : List (GoStr × GoStr)
  valid : Bool
deriving DecidableEq

/-- A `jwt.SigningMethod` at the interface this package uses: its `Alg()`
name. -/
structure SigningMethod where
  alg : GoStr
deriving DecidableEq

/-- `jwt.SigningMethodHS256`, whose `Alg()` is `"HS256"`. -/
def SigningMethodHS256 : SigningMethod := ⟨"HS256".toList⟩

/-- The error values this package can produce or pass through:
its two package-level errors, the library's `jwt.ErrSignatureInvalid`,
the error constructed inside `QueryStringExtractor`, other library-native
parse errors, and errors of user-supplied extractors. -/
inductive GoError where
  | errEmptyToken
  | errTokenMalformed
  | errSignatureInvalid
  | queryStringNotFound
  | libError (msg : GoStr)
  | custom (msg : GoStr)
deriving DecidableEq

/-- The message carried by each error value (`errors.New` argument). -/
def GoError.message : GoError → String
  | .errEmptyToken => "mdw: empty token"
  | .errTokenMalformed => "mdw: invalid token format"
  | .errSignatureInvalid => "signature is invalid"
  | .queryStringNotFound => "could not get query string value"
  | .libError m => m.asString
  | .custom m => m.asString

/-- Comparable `interface{}` values used as context keys (`userProperty`). -/
inductive IKey where
  | str (s : GoStr)
  | nat (n : Nat)
deriving DecidableEq

/-- Values stored in a request context. -/
inductive CtxVal where
  | str (s : GoStr)
  | token (t : JwtToken)
deriving DecidableEq

/-- Model of `context.Context` as the chain of `WithValue` entries, most
recent first. -/
structure Context where
  entries : List (IKey × CtxVal)
deriving DecidableEq

/-- Model of `context.WithValue`: a derived context with one more entry. -/
def Context.withValue (c : Context) (k : IKey) (v : CtxVal) : Context :=
  ⟨(k, v) :: c.entries⟩

/-- Model of `Context.Value`: the most recently added entry for `k`. -/
def Context.value (c : Context) (k : IKey) : Option CtxVal :=
  match c.entries.find? (fun p => p.1 == k) with
  | some p => some p.2
  | none => none

/-- Model of `http.Request` at the interface this package uses. -/
structure Request where
  method : GoStr
  url : URL
  header : Header
  body : GoStr
  ctx : Context
deriving DecidableEq

/-- Model of `Request.WithContext`: a shallow copy with the new context;
every other field is shared. -/
def Request.withContext (r : Request) (c : Context) : Request :=
  { r with ctx := c }

/-- Model of an `http.ResponseWriter` as the response state written so far. -/
structure ResponseWriter where
  status : Option Nat
  body : GoStr
deriving DecidableEq

/-- Model of `WriteHeader`: records the status code; a superfluous second
call is ignored (as in `net/http`). -/
def ResponseWriter.writeHeader (w : ResponseWriter) (code : Nat) : ResponseWriter :=
  match w.status with
  | some _ => w
  | none => { w with status := some code }

/-- Model of `Write`: implicitly sets status 200 if none was written, then
appends the bytes to the body. -/
def ResponseWriter.write (w : ResponseWriter) (s : GoStr) : ResponseWriter :=
  let w := w.writeHeader 200
  { w with body := w.body ++ s }

/-- `TokenExtractor`: maps a request to a raw token string or an error. -/
abbrev TokenExtractor := Request → Except GoError GoStr

/-- `errorHandler`: consumes the writer, the request and the error, and
yields the final writer state. -/
abbrev ErrorHandler := ResponseWriter → Request → GoError → ResponseWriter

/-- An `http.Handler` (its `ServeHTTP`): writer and request to final writer
state. -/
abbrev HttpHandler := ResponseWriter → Request → ResponseWriter

/-- The header name literal used by `BearerExtractor`. -/
def authorizationKey : GoStr := "Authorization".toList

/-- `BearerExtractor`: gets the jwt token from the `Authorization` header. -/
def BearerExtractor (r : Request) : Except GoError GoStr :=
  let token := r.header.get authorizationKey
  if token = [] then .error .errEmptyToken
  else
    let parts := splitChar ' ' token
    if parts.length ≠ 2 ∨ goToLower (parts.headD []) ≠ "bearer".toList ∨ parts.getD 1 [] = [] then
      .error .errTokenMalformed
    else
      .ok (parts.getD 1 [])

/-- `QueryStringExtractor`: factory fixing the query parameter name, whose
extractor reads that parameter from the request URL. -/
def QueryStringExtractor (param : GoStr) : TokenExtractor :=
  fun r =>
    let query := r.url.queryGet param
    if query ≠ [] then .ok query
    else .error .queryStringNotFound

/-- The configuration bag of the middleware (`options`).  `signKey` is the
opaque key material handed to the library (`none` = Go `nil`);
`signingMethod` is `none` when no expected algorithm is configured. -/
structure Options where
  errorHandler : ErrorHandler
  extractor : TokenExtractor
  signingMethod : Option SigningMethod
  signKey : Option GoStr
  userProperty : IKey

/-- A `MiddlewareOption` mutates the options bag. -/
abbrev MiddlewareOption := Options → Options

/-- The `Middleware` struct. -/
structure Middleware where
  options : Options

/-- The default error handler `onError`: writes status 401 and the body
`"unauthorized"`. -/
def onError (w : ResponseWriter) (_ : Request) (_ : GoError) : ResponseWriter :=
  (w.writeHeader 401).write "unauthorized".toList

/-- `WithErrorHandler`: set a custom error handler. -/
def WithErrorHandler (handler : ErrorHandler) : MiddlewareOption :=
  fun opts => { opts with errorHandler := handler }

/-- `WithExtractor`: set a custom token extractor. -/
def WithExtractor (extractor : TokenExtractor) : MiddlewareOption :=
  fun opts => { opts with extractor := extractor }

/-- `WithSigningMethod`: set the expected signing method (`none` = Go `nil`). -/
def WithSigningMethod (method : Option SigningMethod) : MiddlewareOption :=
  fun opts => { opts with signingMethod := method }

/-- `WithSignKey`: set the key used to validate incoming tokens. -/
def WithSignKey (key : Option GoStr) : MiddlewareOption :=
  fun opts => { opts with signKey := key }

/-- `WithUserProperty`: set the context key the token is stored under. -/
def WithUserProperty (property : IKey) : MiddlewareOption :=
  fun opts => { opts with userProperty := property }

/-- The default options bag built inside `New` before the caller's options
are applied. -/
def defaultOptions : Options :=
  { userProperty := .str "user".toList
    signingMethod := some SigningMethodHS256
    errorHandler := onError
    extractor := BearerExtractor
    signKey := none }

/-- `New`: builds the middleware by applying the given options, in order,
over the defaults. -/
def New (opts : List MiddlewareOption) : Middleware :=
  ⟨List.foldl (fun acc w => w acc) defaultOptions opts⟩

/-- The external library's `jwt.Parse` at the interface the middleware uses:
its first argument is the token string, its second the key returned by the
middleware's key-resolver closure (which ignores the token and always
returns the configured `signKey`). -/
abbrev JwtParse := GoStr → Option GoStr → Except GoError JwtToken

/-- `Middleware.parseToken`: extract the raw token, fail fast on an empty
token, delegate to the library, then enforce that the declared `"alg"`
header matches the configured signing method's name (skipped when no
signing method is configured). -/
def Middleware.parseToken (lib : JwtParse) (m : Middleware) (r : Request) :
    Except GoError JwtToken :=
  match m.options.extractor r with
  | .error e => .error e
  | .ok token =>
    if token = [] then .error .errEmptyToken
    else
      match lib token m.options.signKey with
      | .error e => .error e
      | .ok t =>
        match m.options.signingMethod with
        | none => .ok t
        | some meth =>
          if t.headerAlg ≠ some meth.alg then .error .errSignatureInvalid
          else .ok t

/-- `setTokenToContext`: derive a request whose context additionally maps
`key` to the verified token. -/
def setTokenToContext (r : Request) (key : IKey) (token : JwtToken) : Request :=
  r.withContext (r.ctx.withValue key (.token token))

/-- `Middleware.Handler`: wraps a handler; on failure invokes the error
handler, on success invokes the wrapped handler on the derived request. -/
def Middleware.Handler (lib : JwtParse) (m : Middleware) (h : HttpHandler) : HttpHandler :=
  fun w r =>
    match m.parseToken lib r with
    | .error e => m.options.errorHandler w r e
    | .ok token => h w (setTokenToContext r m.options.userProperty token)

/-- `Middleware.HandlerNext`: the three-argument (`negroni`-style) entry
point over the same pipeline. -/
def Middleware.HandlerNext (lib : JwtParse) (m : Middleware)
    (w : ResponseWriter) (r : Request) (next : HttpHandler) : ResponseWriter :=
  match m.parseToken lib r with
  | .error e => m.options.errorHandler w r e
  | .ok token => next w (setTokenToContext r m.options.userProperty token)

instance {ε α : Type} [DecidableEq ε] [DecidableEq α] : DecidableEq (Except ε α)
  | .error a, .error b =>
    if h : a = b then .isTrue (by rw [h])
    else .isFalse (fun hc => h (Except.error.inj hc))
  | .error _, .ok _ => .isFalse (fun hc => Except.noConfusion hc)
  | .ok _, .error _ => .isFalse (fun hc => Except.noConfusion hc)
  | .ok a, .ok b =>
    if h : a = b then .isTrue (by rw [h])
    else .isFalse (fun hc => h (Except.ok.inj hc))

/-- `splitChar` always yields at least one part. -/
theorem splitChar_ne_nil (c : Char) (s : GoStr) : splitChar c s ≠ [] := by
  cases s with
  | nil => simp [splitChar]
  | cons x xs =>
    simp only [splitChar]
    split
    · simp
    · split <;> simp

/-- On a string without the separator, `splitChar` yields that one part. -/
theorem splitChar_no_occ {c : Char} : ∀ {s : GoStr}, c ∉ s → splitChar c s = [s]
  | [], _ => rfl
  | x :: xs, h => by
    have hx : ¬ x = c := fun hc => h (by simp [hc])
    have ih := @splitChar_no_occ c xs (fun hm => h (List.mem_cons_of_mem _ hm))
    simp [splitChar, ih, hx]

/-- Splitting at the first separator occurrence peels off the prefix part. -/
theorem splitChar_append {c : Char} :
    ∀ {s₁ : GoStr}, (s₂ : GoStr) → c ∉ s₁ →
      splitChar c (s₁ ++ c :: s₂) = s₁ :: splitChar c s₂
  | [], s₂, _ => by
    obtain ⟨y, ys, hy⟩ := List.exists_cons_of_ne_nil (splitChar_ne_nil c s₂)
    simp [splitChar, hy]
  | x :: t, s₂, h => by
    have hx : ¬ x = c := fun hc => h (by simp [hc])
    have ih := @splitChar_append c t s₂
      (fun hm => h (List.mem_cons_of_mem _ hm))
    simp [splitChar, ih, hx]

/-- Claim C3: for every configuration, library behavior, downstream handler,
response writer and request, the wrapping-handler adapter `Handler` and the
three-argument adapter `HandlerNext` produce the same final response state,
make the same choice between error handler and downstream, and pass the
same derived request downstream. -/
theorem c3_adapters_equivalent (lib : JwtParse) (m : Middleware) (h : HttpHandler)
    (w : ResponseWriter) (r : Request) :
    Middleware.Handler lib m h w r = Middleware.HandlerNext lib m w r h := rfl

/-- Claim C8: if the configured extractor succeeds with the empty string,
`parseToken` fails with `ErrEmptyToken`, and if the extractor fails, its
error is returned as-is; in both cases the result is the same for every
library parse function, i.e. the library is never consulted. -/
theorem c8_parse_failfast (m : Middleware) (r : Request) :
    (m.options.extractor r = .ok [] →
      ∀ lib : JwtParse, m.parseToken lib r = .error .errEmptyToken) ∧
    (∀ e, m.options.extractor r = .error e →
      ∀ lib : JwtParse, m.parseToken lib r = .error e) := by
  constructor
  · intro hok lib
    simp [Middleware.parseToken, hok]
  · intro e herr lib
    simp [Middleware.parseToken, herr]

/-- Concrete middleware whose extractor returns the empty string with no
error, exercising the fail-fast path of `parseToken`. -/
def c8Mw : Middleware := New [WithExtractor (fun _ => .ok [])]

/-- Concrete request used by the C8 witness. -/
def c8Req : Request :=
  { method := "GET".toList
    url := { path := "/".toList, query := [] }
    header := ⟨[]⟩
    body := []
    ctx := ⟨[]⟩ }

theorem c8_parse_failfast_witness :
    c8Mw.parseToken (fun s _ => .ok ⟨s, some "HS256".toList, [], true⟩) c8Req =
      .error .errEmptyToken :=
  (c8_parse_failfast c8Mw c8Req).1 rfl (fun s _ => .ok ⟨s, some "HS256".toList, [], true⟩)

/-- Claim C9: `setTokenToContext` derives a request that agrees with the
original on method, URL, header and body, whose context is the original
context extended with exactly the one entry mapping `key` to the verified
token; lookups at any other key are unchanged and the original request
value itself is untouched. -/
theorem c9_context_propagation (r : Request) (key : IKey) (t : JwtToken) :
    (setTokenToContext r key t).method = r.method ∧
    (setTokenToContext r key t).url = r.url ∧
    (setTokenToContext r key t).header = r.header ∧
    (setTokenToContext r key t).body = r.body ∧
    (setTokenToContext r key t).ctx.entries = (key, CtxVal.token t) :: r.ctx.entries ∧
    (setTokenToContext r key t).ctx.value key = some (.token t) ∧
    (∀ k, k ≠ key → (setTokenToContext r key t).ctx.value k = r.ctx.value k) := by
    refine ⟨rfl, rfl, rfl, rfl, rfl, ?_, ?_⟩
    · simp [setTokenToContext, Request.withContext, Context.withValue, Context.value]
    · intro k hk
      have hb : (key == k) = false := beq_eq_false_iff_ne.mpr (Ne.symm hk)
      simp [setTokenToContext, Request.withContext, Context.withValue, Context.value,
        List.find?, hb]

/-- Concrete request with a pre-existing context entry, used by the C9
witness. -/
def c9Req : Request :=
  { method := "GET".toList
    url := { path := "/".toList, query := [] }
    header := ⟨[]⟩
    body := []
    ctx := ⟨[(.str "prior".toList, .str "v".toList)]⟩ }

/-- Concrete verified token used by the C9 witness. -/
def c9Tok : JwtToken := ⟨"t".toList, some "HS256".toList, [], true⟩

theorem c9_context_propagation_witness :
    (setTokenToContext c9Req (.str "user".toList) c9Tok).ctx.value (.str "prior".toList) =
      c9Req.ctx.value (.str "prior".toList) :=
  (c9_context_propagation c9Req (.str "user".toList) c9Tok).2.2.2.2.2.2
    (.str "prior".toList) (by decide)

/-- Claim C10: whenever the query-string extractor fails, the error it
returns is the freshly constructed "could not get query string value"
error, which is distinct from both `ErrEmptyToken` and `ErrTokenMalformed`,
so it lies outside the package's named extractor-error taxonomy. -/
theorem c10_query_error_unclassified (param : GoStr) (r : Request)
    (h : r.url.queryGet param = []) :
    QueryStringExtractor param r = .error .queryStringNotFound ∧
    GoError.queryStringNotFound ≠ GoError.errEmptyToken ∧
    GoError.queryStringNotFound ≠ GoError.errTokenMalformed ∧
    GoError.message .queryStringNotFound = "could not get query string value" := by
  refine ⟨?_, by decide, by decide, rfl⟩
  simp [QueryStringExtractor, h]

/-- Concrete request whose URL carries no query parameters, used by the C10
witness. -/
def c10Req : Request :=
  { method := "GET".toList
    url := { path := "/fake".toList, query := [] }
    header := ⟨[]⟩
    body := []
    ctx := ⟨[]⟩ }

theorem c10_query_error_unclassified_witness :
    QueryStringExtractor "jwt".toList c10Req = .error .queryStringNotFound ∧
    GoError.queryStringNotFound ≠ GoError.errEmptyToken :=
  ⟨(c10_query_error_unclassified "jwt".toList c10Req rfl).1,
   (c10_query_error_unclassified "jwt".toList c10Req rfl).2.1⟩

/-- Concrete request for the URL `/fake?jwt=token` used by claim C6. -/
def c6Req : Request :=
  { method := "GET".toList
    url := { path := "/fake".toList, query := [("jwt".toList, "token".toList)] }
    header := ⟨[]⟩
    body := []
    ctx := ⟨[]⟩ }

/-- Claim C6: an extractor produced by `QueryStringExtractor` returns the
named query parameter's value when it is non-empty and fails with the
not-found error otherwise; concretely, on `/fake?jwt=token` the extractor
bound to `"jwt"` returns `"token"` and ones bound to `"f"`, `""` or `":"`
fail. -/
theorem c6_query_extractor (param : GoStr) (r : Request) :
    (r.url.queryGet param ≠ [] →
      QueryStringExtractor param r = .ok (r.url.queryGet param)) ∧
    (r.url.queryGet param = [] →
      QueryStringExtractor param r = .error .queryStringNotFound) ∧
    QueryStringExtractor "jwt".toList c6Req = .ok "token".toList ∧
    QueryStringExtractor "f".toList c6Req = .error .queryStringNotFound ∧
    QueryStringExtractor [] c6Req = .error .queryStringNotFound ∧
    QueryStringExtractor ":".toList c6Req = .error .queryStringNotFound := by
  refine ⟨?_, ?_, by decide, by decide, by decide, by decide⟩
  · intro hne
    simp [QueryStringExtractor, hne]
  · intro hq
    simp [QueryStringExtractor, hq]

theorem c6_query_extractor_witness :
    QueryStringExtractor "jwt".toList c6Req = .ok (c6Req.url.queryGet "jwt".toList) :=
  (c6_query_extractor "jwt".toList c6Req).1 (by decide)

/-- Claim C2: both entry points run extraction-then-verification; when the
pipeline fails they produce exactly the error handler's output on the
writer, the original request and the error (for every downstream handler,
so the downstream is never consulted); when it succeeds they produce
exactly the downstream handler's output on the derived request, whose
context holds the verified token under the configured key (for every error
handler state, the error handler output does not appear). -/
theorem c2_dispatch (lib : JwtParse) (m : Middleware) (h : HttpHandler)
    (w : ResponseWriter) (r : Request) :
    (∀ e, m.parseToken lib r = .error e →
      Middleware.Handler lib m h w r = m.options.errorHandler w r e ∧
      Middleware.HandlerNext lib m w r h = m.options.errorHandler w r e) ∧
    (∀ t, m.parseToken lib r = .ok t →
      Middleware.Handler lib m h w r = h w (setTokenToContext r m.options.userProperty t) ∧
      Middleware.HandlerNext lib m w r h = h w (setTokenToContext r m.options.userProperty t) ∧
      (setTokenToContext r m.options.userProperty t).ctx.value m.options.userProperty =
        some (.token t)) := by
  constructor
  · intro e he
    constructor <;> simp [Middleware.Handler, Middleware.HandlerNext, he]
  · intro t ht
    refine ⟨?_, ?_, ?_⟩ <;>
      simp [Middleware.Handler, Middleware.HandlerNext, ht, setTokenToContext,
        Request.withContext, Context.withValue, Context.value]

/-- Concrete accepting library parse used by the C2 witness. -/
def c2Lib : JwtParse := fun s _ => .ok ⟨s, some "HS256".toList, [], true⟩

/-- Concrete request with a well-formed bearer header used by the C2
witness. -/
def c2Req : Request :=
  { method := "GET".toList
    url := { path := "/".toList, query := [] }
    header := ⟨[("Authorization".toList, "Bearer abc".toList)]⟩
    body := []
    ctx := ⟨[]⟩ }

/-- A downstream handler that writes `"OK"`, used by the C2 witness. -/
def c2Handler : HttpHandler := fun w _ => w.write "OK".toList

theorem c2_dispatch_witness :
    Middleware.Handler c2Lib (New []) c2Handler ⟨none, []⟩ c2Req =
      c2Handler ⟨none, []⟩
        (setTokenToContext c2Req (New []).options.userProperty
          ⟨"abc".toList, some "HS256".toList, [], true⟩) :=
  ((c2_dispatch c2Lib (New []) c2Handler ⟨none, []⟩ c2Req).2
    ⟨"abc".toList, some "HS256".toList, [], true⟩ (by decide)).1

/-- Claim C1: whenever the extracted token is non-empty and accepted by the
library's parse, a configured (non-`nil`) signing method makes `parseToken`
return `jwt.ErrSignatureInvalid` exactly when the token's declared `"alg"`
header differs from that method's algorithm name, and the verified token
otherwise; a `nil` signing method disables the check and the verified token
is returned unconditionally. -/
theorem c1_alg_enforcement (lib : JwtParse) (m : Middleware) (r : Request)
    (s : GoStr) (t : JwtToken)
    (hext : m.options.extractor r = .ok s) (hne : s ≠ [])
    (hlib : lib s m.options.signKey = .ok t) :
    (∀ meth, m.options.signingMethod = some meth →
      m.parseToken lib r =
        if t.headerAlg ≠ some meth.alg then .error .errSignatureInvalid else .ok t) ∧
    (m.options.signingMethod = none → m.parseToken lib r = .ok t) := by
  constructor
  · intro meth hm
    simp [Middleware.parseToken, hext, hne, hlib, hm]
  · intro hm
    simp [Middleware.parseToken, hext, hne, hlib, hm]

/-- Concrete accepting library parse used by the C1 witness. -/
def c1Lib : JwtParse := fun s _ => .ok ⟨s, some "HS256".toList, [], true⟩

/-- Concrete request with a well-formed bearer header used by the C1
witness. -/
def c1Req : Request :=
  { method := "GET".toList
    url := { path := "/".toList, query := [] }
    header := ⟨[("Authorization".toList, "Bearer abc".toList)]⟩
    body := []
    ctx := ⟨[]⟩ }

theorem c1_alg_enforcement_witness :
    (New []).parseToken c1Lib c1Req = .ok ⟨"abc".toList, some "HS256".toList, [], true⟩ := by
  have h := (c1_alg_enforcement c1Lib (New []) c1Req "abc".toList
    ⟨"abc".toList, some "HS256".toList, [], true⟩ (by decide) (by decide) rfl).1
    SigningMethodHS256 rfl
  rw [h]
  decide

/-- Claim C7: `New` starts from the defaults — no signing key, HMAC-SHA256
signing method, attachment key `"user"`, the 401/`"unauthorized"` error
handler, the bearer extractor — applies the given options in order (a left
fold), the last write per field winning, and performs no validation (it is
a total fold with no checks). -/
theorem c7_new_configuration (opts : List MiddlewareOption) :
    (New opts).options = List.foldl (fun acc w => w acc) defaultOptions opts ∧
    defaultOptions.signKey = none ∧
    defaultOptions.signingMethod = some SigningMethodHS256 ∧
    SigningMethodHS256.alg = "HS256".toList ∧
    defaultOptions.userProperty = .str "user".toList ∧
    defaultOptions.errorHandler = onError ∧
    defaultOptions.extractor = BearerExtractor ∧
    (∀ w r e, onError w r e = (w.writeHeader 401).write "unauthorized".toList) ∧
    (∀ r e, onError ⟨none, []⟩ r e = ⟨some 401, "unauthorized".toList⟩) ∧
    (∀ k, (New (opts ++ [WithSignKey k])).options =
      { (New opts).options with signKey := k }) ∧
    (∀ meth, (New (opts ++ [WithSigningMethod meth])).options =
      { (New opts).options with signingMethod := meth }) ∧
    (∀ p, (New (opts ++ [WithUserProperty p])).options =
      { (New opts).options with userProperty := p }) ∧
    (∀ eh, (New (opts ++ [WithErrorHandler eh])).options =
      { (New opts).options with errorHandler := eh }) ∧
    (∀ ex, (New (opts ++ [WithExtractor ex])).options =
      { (New opts).options with extractor := ex }) := by
  refine ⟨rfl, rfl, rfl, rfl, rfl, rfl, rfl, fun w r e => rfl, fun r e => rfl,
    ?_, ?_, ?_, ?_, ?_⟩ <;>
  · intro x
    simp [New, List.foldl_append, WithSignKey, WithSigningMethod, WithUserProperty,
      WithErrorHandler, WithExtractor]

/-- Claim C4: for every request whose `Authorization` header value has the
shape `<scheme> <token>` with the scheme word equal to `"bearer"` under any
letter casing and a non-empty token, `BearerExtractor` returns the token
verbatim; and header lookup is case-insensitive: names with the same
canonical form are looked up identically. -/
theorem c4_bearer_wellformed :
    (∀ (r : Request) (scheme tok : GoStr),
      r.header.get authorizationKey = scheme ++ ' ' :: tok →
      ' ' ∉ scheme → ' ' ∉ tok → tok ≠ [] →
      goToLower scheme = "bearer".toList →
      BearerExtractor r = .ok tok) ∧
    (∀ (h : Header) (n₁ n₂ : GoStr), canonicalKey n₁ = canonicalKey n₂ →
      h.get n₁ = h.get n₂) := by
  constructor
  · intro r scheme tok hval hs ht htne hlow
    have hsplit : splitChar ' ' (scheme ++ ' ' :: tok) = [scheme, tok] := by
      rw [splitChar_append tok hs, splitChar_no_occ ht]
    have hnil : scheme ++ ' ' :: tok ≠ [] := by simp
    simp [BearerExtractor, hval, hsplit, hnil, hlow, htne]
  · intro h n₁ n₂ hcan
    simp only [Header.get, hcan]

/-- Concrete request whose `Authorization` header is stored under an
all-caps name with a capitalised scheme word, used by the C4 witness. -/
def c4Req : Request :=
  { method := "GET".toList
    url := { path := "/".toList, query := [] }
    header := ⟨[("AUTHORIZATION".toList, "Bearer abc.def.ghi".toList)]⟩
    body := []
    ctx := ⟨[]⟩ }

theorem c4_bearer_wellformed_witness :
    BearerExtractor c4Req = .ok "abc.def.ghi".toList :=
  c4_bearer_wellformed.1 c4Req "Bearer".toList "abc.def.ghi".toList
    (by decide) (by decide) (by decide) (by decide) (by decide)

/-- Claim C5: `BearerExtractor` fails with `ErrEmptyToken` exactly when the
`Authorization` header value is empty (or absent, which `Header.Get`
reports as empty); on a non-empty value it fails with `ErrTokenMalformed`
exactly when splitting on a single space does not yield exactly two
non-empty parts whose first part, lower-cased, is the literal `"bearer"`. -/
theorem c5_bearer_error_classes (r : Request) :
    (BearerExtractor r = .error .errEmptyToken ↔
      r.header.get authorizationKey = []) ∧
    (BearerExtractor r = .error .errTokenMalformed ↔
      (r.header.get authorizationKey ≠ [] ∧
        ¬ ((splitChar ' ' (r.header.get authorizationKey)).length = 2 ∧
           (splitChar ' ' (r.header.get authorizationKey)).headD [] ≠ [] ∧
           (splitChar ' ' (r.header.get authorizationKey)).getD 1 [] ≠ [] ∧
           goToLower ((splitChar ' ' (r.header.get authorizationKey)).headD []) =
             "bearer".toList))) := by
  have key : ∀ p : GoStr, goToLower p = "bearer".toList → p ≠ [] := by
    intro p hp hnil
    subst hnil
    revert hp
    decide
  have heq : BearerExtractor r =
      if r.header.get authorizationKey = [] then .error .errEmptyToken
      else if (splitChar ' ' (r.header.get authorizationKey)).length ≠ 2 ∨
          goToLower ((splitChar ' ' (r.header.get authorizationKey)).headD []) ≠
            "bearer".toList ∨
          (splitChar ' ' (r.header.get authorizationKey)).getD 1 [] = []
        then .error .errTokenMalformed
        else .ok ((splitChar ' ' (r.header.get authorizationKey)).getD 1 []) := rfl
  rw [heq]
  split_ifs with h1 h2
  · refine ⟨⟨fun _ => h1, fun _ => rfl⟩, ⟨?_, ?_⟩⟩
    · intro habs
      exact absurd (Except.error.inj habs) (fun hh => GoError.noConfusion hh)
    · intro hrhs
      exact absurd h1 hrhs.1
  · refine ⟨⟨?_, ?_⟩, ⟨?_, fun _ => rfl⟩⟩
    · intro habs
      exact absurd (Except.error.inj habs) (fun hh => GoError.noConfusion hh)
    · intro hveq
      exact absurd hveq h1
    · intro _
      exact ⟨h1, fun hgood => by tauto⟩
  · push_neg at h2
    refine ⟨⟨?_, ?_⟩, ⟨?_, ?_⟩⟩
    · intro habs
      exact habs.elim
    · intro hveq
      exact absurd hveq h1
    · intro habs
      exact habs.elim
    · intro hrhs
      exact absurd ⟨h2.1, key _ h2.2.1, h2.2.2, h2.2.1⟩ hrhs.2

theorem c5_bearer_error_classes_witness :
    BearerExtractor
      { method := "GET".toList
        url := { path := "/".toList, query := [] }
        header := ⟨[("Authorization".toList, "Basic abc".toList)]⟩
        body := []
        ctx := ⟨[]⟩ } = .error .errTokenMalformed :=
  (c5_bearer_error_classes
    { method := "GET".toList
      url := { path := "/".toList, query := [] }
      header := ⟨[("Authorization".toList, "Basic abc".toList)]⟩
      body := []
      ctx := ⟨[]⟩ }).2.mpr (by decide)

end JwtMw
